import Mathlib

/-!
Verification development for the UTAUBGMmarker audio pipeline.

Shallow embedding of:
  * `src/oscilloscope/load_audio.py`  (class `AudioLoader`: `downsample`,
    `compute_stereo_average`, `normalize_audio`) — the single-extremum
    decimation policy used for viewport re-derivation;
  * `src/audio_model/load_audio.py`   (class `AudioLoader`: `load_audio`,
    `get_duration`, `_downsample`, `_compute_stereo_average`,
    `_normalize_audio`) — the load-time pipeline with the dual-extremum
    decimation policy;
  * `src/oscilloscope/ruler/ruler_controller.py` (`RulerController`:
    `draw_ruler_auto`, `draw_ruler_actual`) — the adaptive tick scale.

Modelling conventions:
  * Python machine arithmetic on sample values is modelled over `Int`;
    numpy `int16`/`uint8` wraparound is made explicit: `wrapInt` for the
    channel sum, `npAbs16` for `np.abs` on the int16 buffers
    (`np.abs(-32768) = -32768`).
  * Python `float` window arithmetic (`original_length / target_length`,
    `np.arange`, `np.floor`, `np.ceil`) is modelled by exact rational
    arithmetic, which over naturals reduces to `Nat` floor division:
    `floor(i * (L / T)) = i * L / T` and
    `ceil((i+1) * (L / T)) = ((i+1) * L + T - 1) / T`.
  * Normalized ratios (Python `float32`/`float64` results) are modelled
    as exact rationals `ℚ`.
  * Python code that can raise (`ZeroDivisionError` when a window count is
    zero, `ValueError` on an unsupported sample width, numpy broadcast
    errors on mismatched channel lengths) returns `none`.
-/

/-- Greatest absolute value in a list of samples (`np.max(np.abs(w))`),
with 0 for the empty list. -/
def natAbsMax (l : List Int) : Nat :=
  l.foldr (fun x m => max x.natAbs m) 0

/-- numpy `np.abs` on the `int16` buffers `downsample` receives in
`load_audio`: the absolute value wraps back into the int16 range, so
`np.abs(-32768) = -32768` (values in `(-32768, 32767]`, and in particular
the whole `uint8` range, keep their exact absolute value). -/
def npAbs16 (x : Int) : Int := (|x| + 32768) % 65536 - 32768

/-- The element selected by
`extrema = np.max(np.abs(window)); index = np.where(np.abs(window) == extrema)[0][0];
window[index]` in `AudioLoader.downsample`: the first element whose (int16,
wrapping) absolute value `npAbs16` is maximal (first occurrence wins on
ties; machine comparisons are signed int16 comparisons). -/
def firstMaxAbs : List Int → Int
  | [] => 0
  | [x] => x
  | x :: y :: xs =>
    if npAbs16 (firstMaxAbs (y :: xs)) ≤ npAbs16 x then x else firstMaxAbs (y :: xs)

/-- Window start index `int(np.floor(indices[i]))` where
`indices[i] = i * (L / T)` exactly. -/
def dsStart (L T i : Nat) : Nat := i * L / T

/-- Window end index: `int(np.ceil(indices[i + 1])) if i + 1 < len(indices) else L`,
where `len(indices) = ceil(L / (L / T)) = T` in exact arithmetic. -/
def dsEnd (L T i : Nat) : Nat := if i + 1 < T then ((i + 1) * L + T - 1) / T else L

/-- The slice `audio_data[start_index:end_index]` for window `i` of `T`. -/
def dsWindow {α : Type} (samples : List α) (T i : Nat) : List α :=
  (samples.drop (dsStart samples.length T i)).take
    (dsEnd samples.length T i - dsStart samples.length T i)

/-- Embedding of `AudioLoader.downsample` in `src/oscilloscope/load_audio.py`
(single-extremum-by-magnitude policy).  Returns `none` exactly when the Python
code raises `ZeroDivisionError` (`original_length / target_length` with
`target_length = 0` while `original_length > 0`).  A window only contributes a
point when it is non-empty, as in the source (`if len(window) > 0`). -/
def downsample (samples : List Int) (target_length : Nat) : Option (List Int) :=
  let original_length := samples.length
  if original_length ≤ target_length then some samples
  else if target_length = 0 then none
  else some ((List.range target_length).filterMap (fun i =>
    let w := dsWindow samples target_length i
    if w.isEmpty then none else some (firstMaxAbs w)))

theorem natAbsMax_cons (x : Int) (xs : List Int) :
    natAbsMax (x :: xs) = max x.natAbs (natAbsMax xs) := rfl

theorem le_natAbsMax_of_mem {x : Int} : ∀ {l : List Int}, x ∈ l → x.natAbs ≤ natAbsMax l := by
  intro l hx
  induction l with
  | nil => cases hx
  | cons y ys ih =>
    rw [natAbsMax_cons]
    rcases List.mem_cons.mp hx with h | h
    · subst h; exact Nat.le_max_left _ _
    · exact Nat.le_trans (ih h) (Nat.le_max_right _ _)

theorem natAbsMax_le {m : Nat} : ∀ {l : List Int}, (∀ x ∈ l, x.natAbs ≤ m) → natAbsMax l ≤ m := by
  intro l h
  induction l with
  | nil => exact Nat.zero_le m
  | cons y ys ih =>
    rw [natAbsMax_cons]
    exact max_le (h y (List.mem_cons_self y ys)) (ih (fun x hx => h x (List.mem_cons_of_mem y hx)))

theorem firstMaxAbs_mem : ∀ {l : List Int}, l ≠ [] → firstMaxAbs l ∈ l := by
  intro l hl
  match l with
  | [x] => rw [firstMaxAbs]; exact List.mem_singleton_self x
  | x :: y :: xs =>
    rw [firstMaxAbs]
    by_cases hc : npAbs16 (firstMaxAbs (y :: xs)) ≤ npAbs16 x
    · simp [hc]
    · simp only [if_neg hc]
      exact List.mem_cons_of_mem x (firstMaxAbs_mem (List.cons_ne_nil y xs))

/-- On values strictly inside the int16 range the wrapping absolute value is
the exact one. -/
theorem npAbs16_eq_natAbs {x : Int} (hlo : -32768 < x) (hhi : x ≤ 32767) :
    npAbs16 x = (x.natAbs : Int) := by
  rw [npAbs16]
  have habs : |x| = (x.natAbs : Int) := Int.abs_eq_natAbs x
  have hb : (x.natAbs : Int) ≤ 32767 := by
    rw [← habs]
    rw [abs_le]
    omega
  have hnn : (0 : Int) ≤ (x.natAbs : Int) := Int.natCast_nonneg _
  rw [habs, Int.emod_eq_of_lt (by omega) (by omega)]
  omega

theorem natAbs_firstMaxAbs :
    ∀ (l : List Int), (∀ x ∈ l, -32768 < x ∧ x ≤ 32767) → l ≠ [] →
      (firstMaxAbs l).natAbs = natAbsMax l := by
  intro l hrange hl
  match l with
  | [x] =>
    rw [firstMaxAbs, natAbsMax_cons]
    simp [natAbsMax]
  | x :: y :: xs =>
    have hrest : ∀ z ∈ y :: xs, -32768 < z ∧ z ≤ 32767 :=
      fun z hz => hrange z (List.mem_cons_of_mem x hz)
    have ih := natAbs_firstMaxAbs (y :: xs) hrest (List.cons_ne_nil y xs)
    have hbmem : firstMaxAbs (y :: xs) ∈ y :: xs :=
      firstMaxAbs_mem (List.cons_ne_nil y xs)
    have hbr := hrest _ hbmem
    have hxr := hrange x (List.mem_cons_self x (y :: xs))
    have hb : npAbs16 (firstMaxAbs (y :: xs)) = ((firstMaxAbs (y :: xs)).natAbs : Int) :=
      npAbs16_eq_natAbs hbr.1 hbr.2
    have hx : npAbs16 x = (x.natAbs : Int) := npAbs16_eq_natAbs hxr.1 hxr.2
    rw [firstMaxAbs, natAbsMax_cons]
    by_cases hc : npAbs16 (firstMaxAbs (y :: xs)) ≤ npAbs16 x
    · rw [if_pos hc]
      rw [hb, hx] at hc
      have hcn : (firstMaxAbs (y :: xs)).natAbs ≤ x.natAbs := by exact_mod_cast hc
      rw [Nat.max_eq_left (ih ▸ hcn)]
    · rw [if_neg hc]
      rw [hb, hx] at hc
      have hcn : x.natAbs ≤ (firstMaxAbs (y :: xs)).natAbs :=
        by omega
      rw [Nat.max_eq_right (ih ▸ hcn), ih]

theorem filterMap_eq_map_of_forall {α β : Type} (f : α → Option β) (g : α → β) :
    ∀ l : List α, (∀ a ∈ l, f a = some (g a)) → l.filterMap f = l.map g := by
  intro l h
  induction l with
  | nil => rfl
  | cons x xs ih =>
    rw [List.filterMap_cons, h x (List.mem_cons_self x xs), List.map_cons,
      ih (fun a ha => h a (List.mem_cons_of_mem x ha))]

theorem dsStart_lt_length {L T i : Nat} (h1 : 1 ≤ T) (h2 : T < L) (hi : i < T) :
    dsStart L T i < L := by
  rw [dsStart, Nat.div_lt_iff_lt_mul h1]
  have hL : 0 < L := Nat.lt_of_le_of_lt (Nat.zero_le T) h2
  calc i * L < T * L := (Nat.mul_lt_mul_right hL).mpr hi
  _ = L * T := Nat.mul_comm T L

theorem dsStart_lt_dsEnd {L T i : Nat} (h1 : 1 ≤ T) (h2 : T < L) (hi : i < T) :
    dsStart L T i < dsEnd L T i := by
  rw [dsEnd]
  by_cases hc : i + 1 < T
  · rw [if_pos hc]
    have hTL : T ≤ L := Nat.le_of_lt h2
    have step1 : i * L + T ≤ (i + 1) * L + T - 1 := by
      have : i * L + L = (i + 1) * L := by ring
      omega
    have step2 : (i * L + T) / T ≤ ((i + 1) * L + T - 1) / T :=
      Nat.div_le_div_right step1
    have step3 : (i * L + T) / T = i * L / T + 1 := by
      have := Nat.add_mul_div_right (i * L) 1 h1
      simpa using this
    rw [dsStart]
    omega
  · rw [if_neg hc]
    exact dsStart_lt_length h1 h2 hi

theorem dsWindow_length_pos {samples : List Int} {T i : Nat}
    (h1 : 1 ≤ T) (h2 : T < samples.length) (hi : i < T) :
    0 < (dsWindow samples T i).length := by
  rw [dsWindow, List.length_take, List.length_drop]
  have ha := dsStart_lt_length h1 h2 hi
  have hb := dsStart_lt_dsEnd h1 h2 hi
  omega

theorem downsample_eq_map {samples : List Int} {T : Nat}
    (h1 : 1 ≤ T) (h2 : T < samples.length) :
    downsample samples T =
      some ((List.range T).map (fun i => firstMaxAbs (dsWindow samples T i))) := by
  rw [downsample]
  simp only [if_neg (Nat.not_le.mpr h2), if_neg (by omega : ¬ T = 0)]
  congr 1
  apply filterMap_eq_map_of_forall
  intro i hi
  have hi' : i < T := List.mem_range.mp hi
  have := dsWindow_length_pos h1 h2 hi'
  rw [if_neg]
  simp only [List.isEmpty_iff]
  intro hnil
  rw [hnil] at this
  simp at this

theorem dsWindow_sublist (samples : List Int) (T i : Nat) :
    (dsWindow samples T i).Sublist samples :=
  List.Sublist.trans (List.take_sublist _ _) (List.drop_sublist _ _)

theorem mem_of_mem_dsWindow {samples : List Int} {T i : Nat} {x : Int}
    (hx : x ∈ dsWindow samples T i) : x ∈ samples :=
  (dsWindow_sublist samples T i).mem hx

theorem dsCover {L T j : Nat} (h1 : 1 ≤ T) (hj : j < L) :
    j * T / L < T ∧ dsStart L T (j * T / L) ≤ j ∧ j < dsEnd L T (j * T / L) := by
  have hL : 0 < L := by omega
  have hiT : j * T / L < T := by
    rw [Nat.div_lt_iff_lt_mul hL]
    calc j * T < L * T := (Nat.mul_lt_mul_right h1).mpr hj
    _ = T * L := Nat.mul_comm L T
  refine ⟨hiT, ?_, ?_⟩
  · rw [dsStart]
    have hle : j * T / L * L ≤ j * T := Nat.div_mul_le_self (j * T) L
    calc j * T / L * L / T ≤ j * T / T := Nat.div_le_div_right hle
    _ = j := Nat.mul_div_cancel j h1
  · have hmod := Nat.div_add_mod (j * T) L
    have hrlt : j * T % L < L := Nat.mod_lt (j * T) hL
    have hkey : j * T < (j * T / L + 1) * L := by
      have hexp : (j * T / L + 1) * L = L * (j * T / L) + L := by ring
      omega
    rw [dsEnd]
    by_cases hc : j * T / L + 1 < T
    · rw [if_pos hc]
      rw [Nat.lt_iff_add_one_le, Nat.le_div_iff_mul_le h1]
      have hpos : 0 < (j * T / L + 1) * L := Nat.mul_pos (Nat.succ_pos _) hL
      have : (j + 1) * T = j * T + T := by ring
      omega
    · rw [if_neg hc]
      exact hj

theorem getElem_mem_dsWindow {samples : List Int} {T i j : Nat}
    (hj : j < samples.length)
    (hs : dsStart samples.length T i ≤ j) (he : j < dsEnd samples.length T i) :
    samples[j] ∈ dsWindow samples T i := by
  rw [dsWindow, List.mem_iff_getElem]
  have hlen : j - dsStart samples.length T i <
      ((samples.drop (dsStart samples.length T i)).take
        (dsEnd samples.length T i - dsStart samples.length T i)).length := by
    rw [List.length_take, List.length_drop]
    omega
  refine ⟨j - dsStart samples.length T i, hlen, ?_⟩
  rw [List.getElem_take, List.getElem_drop]
  have hidx : dsStart samples.length T i + (j - dsStart samples.length T i) = j := by omega
  simp only [hidx]

/-- Maximum of a list (`np.max`), 0 on the empty list (the sources only apply
it to non-empty windows, guarded by `if len(window) > 0`). -/
def listMax {α : Type} [LinearOrder α] [Zero α] : List α → α
  | [] => 0
  | x :: xs => xs.foldl max x

/-- Minimum of a list (`np.min`), 0 on the empty list. -/
def listMin {α : Type} [LinearOrder α] [Zero α] : List α → α
  | [] => 0
  | x :: xs => xs.foldl min x

/-- The two points `[max_val, min_val]` contributed by window `i` in
`AudioLoader._downsample` (`src/audio_model/load_audio.py`), or `[0, 0]` for
an empty window. -/
def dualWindowPoints (samples : List Int) (e i : Nat) : List Int :=
  if (dsWindow samples e i).isEmpty then [0, 0]
  else [listMax (dsWindow samples e i), listMin (dsWindow samples e i)]

/-- The `downsampled_data` list built by the loop over the
`effective_target_length` windows in `AudioLoader._downsample`. -/
def dualBody (samples : List Int) (e : Nat) : List Int :=
  ((List.range e).map (dualWindowPoints samples e)).flatten

/-- The padding point appended for an odd `target_length`:
`downsampled_data[-2] if downsampled_data[-1] == 0 else downsampled_data[-1]`
when at least two points were emitted, else `0`. -/
def padValue (l : List Int) : Int :=
  if 2 ≤ l.length then
    if l.getD (l.length - 1) 0 = 0 then l.getD (l.length - 2) 0
    else l.getD (l.length - 1) 0
  else 0

/-- Embedding of `AudioLoader._downsample` in `src/audio_model/load_audio.py`
(dual-extremum policy).  `effective_target_length = target_length // 2`;
`none` exactly when the Python code raises `ZeroDivisionError`
(`original_length / effective_target_length` with a zero window count, i.e.
`target_length ≤ 1` while `original_length > target_length`).  The final
`downsampled_data[:target_length]` truncation is the `take`. -/
def dualDownsample (samples : List Int) (target_length : Nat) : Option (List Int) :=
  if samples.length ≤ target_length then some samples
  else if target_length / 2 = 0 then none
  else some ((if target_length % 2 ≠ 0 then
      dualBody samples (target_length / 2) ++ [padValue (dualBody samples (target_length / 2))]
    else dualBody samples (target_length / 2)).take target_length)

theorem dualWindowPoints_length (samples : List Int) (e i : Nat) :
    (dualWindowPoints samples e i).length = 2 := by
  rw [dualWindowPoints]
  by_cases hc : (dsWindow samples e i).isEmpty <;> simp [hc]

theorem length_join_map_two {α : Type} (f : α → List Int) :
    ∀ l : List α, (∀ a ∈ l, (f a).length = 2) → ((l.map f).flatten).length = 2 * l.length := by
  intro l h
  induction l with
  | nil => rfl
  | cons x xs ih =>
    rw [List.map_cons, List.flatten_cons, List.length_append,
      h x (List.mem_cons_self x xs), ih (fun a ha => h a (List.mem_cons_of_mem x ha)),
      List.length_cons]
    ring

theorem dualBody_length (samples : List Int) (e : Nat) :
    (dualBody samples e).length = 2 * e := by
  rw [dualBody, length_join_map_two _ _ (fun a _ => dualWindowPoints_length samples e a),
    List.length_range]

theorem dualDownsample_some {samples : List Int} {T : Nat}
    (h2 : 2 ≤ T) (hL : T < samples.length) :
    ∃ out, dualDownsample samples T = some out ∧ out.length = T := by
  rw [dualDownsample, if_neg (Nat.not_le.mpr hL), if_neg (by omega : ¬ T / 2 = 0)]
  refine ⟨_, rfl, ?_⟩
  rw [List.length_take]
  by_cases hodd : T % 2 ≠ 0
  · rw [if_pos hodd, List.length_append, dualBody_length]
    simp only [List.length_cons, List.length_nil]
    omega
  · rw [if_neg hodd, dualBody_length]
    omega

/-- C1, counterexample: the claim quantifies over every `T < len(source)`,
including `T = 0`; there `AudioLoader.downsample` computes
`original_length / target_length` with `target_length = 0` and raises
`ZeroDivisionError` instead of returning a length-0 sequence. -/
theorem C1_counterexample_target_zero : downsample [1, 2] 0 = none := by decide

/-- C1, amended: for every source sequence and every target length `T` with
`1 ≤ T < len(source)`, the single-extremum-by-magnitude decimation policy
(`AudioLoader.downsample`, `src/oscilloscope/load_audio.py`) returns a
sequence of length exactly `T`; for `T = 0 < len(source)` it raises
`ZeroDivisionError`. -/
theorem C1_single_extremum_length (samples : List Int) (T : Nat)
    (h1 : 1 ≤ T) (h2 : T < samples.length) :
    ∃ out, downsample samples T = some out ∧ out.length = T := by
  refine ⟨_, downsample_eq_map h1 h2, ?_⟩
  rw [List.length_map, List.length_range]

/-- Witness for C1 at `samples = [3, -1, 2]`, `T = 2`. -/
theorem C1_single_extremum_length_witness :
    1 ≤ 2 ∧ 2 < ([3, -1, 2] : List Int).length ∧
      ∃ out, downsample [3, -1, 2] 2 = some out ∧ out.length = 2 :=
  ⟨by decide, by decide, C1_single_extremum_length [3, -1, 2] 2 (by decide) (by decide)⟩

/-- C9, counterexample: `np.abs` wraps on the int16 buffers `downsample`
receives in `load_audio` (`np.abs(-32768) = -32768`), so on `[-32768, 100]`
with `T = 1` the single window's computed "extrema" is 100, the code returns
`[100]`, and the peak magnitude 32768 of the input is lost — the claimed
unconditional peak preservation fails. -/
theorem C9_counterexample_npabs_wrap :
    downsample [-32768, 100] 1 = some [100] ∧
      natAbsMax [100] = 100 ∧ natAbsMax [-32768, 100] = 32768 ∧
      ((100 : Nat) ≠ 32768) := by
  refine ⟨by decide, by decide, by decide, by decide⟩

/-- C9, amended: for every sample sequence whose values all lie strictly
inside the symmetric int16 range, i.e. in `(-32768, 32767]` (where the
machine `np.abs` is the exact absolute value), and every `1 ≤ T < len(samples)`,
single-extremum decimation preserves the global peak: the maximum absolute
value of the output equals the maximum absolute value of the input (windows
jointly cover every input index, and each window contributes its element of
greatest absolute magnitude).  A sequence containing `-32768` can lose its
peak, because `np.abs(-32768)` wraps to `-32768`. -/
theorem C9_single_extremum_peak_preserved (samples : List Int) (T : Nat)
    (h1 : 1 ≤ T) (h2 : T < samples.length)
    (hrange : ∀ x ∈ samples, -32768 < x ∧ x ≤ 32767) :
    ∃ out, downsample samples T = some out ∧ natAbsMax out = natAbsMax samples := by
  refine ⟨_, downsample_eq_map h1 h2, ?_⟩
  apply Nat.le_antisymm
  · apply natAbsMax_le
    intro x hx
    rcases List.mem_map.mp hx with ⟨i, hi, rfl⟩
    have hiT : i < T := List.mem_range.mp hi
    have hwne : dsWindow samples T i ≠ [] := by
      have hpos := dsWindow_length_pos h1 h2 hiT
      intro hnil
      rw [hnil] at hpos
      simp at hpos
    exact le_natAbsMax_of_mem (mem_of_mem_dsWindow (firstMaxAbs_mem hwne))
  · apply natAbsMax_le
    intro x hx
    rcases List.mem_iff_getElem.mp hx with ⟨j, hj, rfl⟩
    obtain ⟨hiT, hs, he⟩ := dsCover (L := samples.length) h1 hj
    have hmem := getElem_mem_dsWindow hj hs he
    have hle : (samples[j]).natAbs ≤
        natAbsMax (dsWindow samples T (j * T / samples.length)) :=
      le_natAbsMax_of_mem hmem
    have hwrange : ∀ z ∈ dsWindow samples T (j * T / samples.length),
        -32768 < z ∧ z ≤ 32767 :=
      fun z hz => hrange z (mem_of_mem_dsWindow hz)
    have hwne : dsWindow samples T (j * T / samples.length) ≠ [] := by
      have hpos := dsWindow_length_pos h1 h2 hiT
      intro hnil
      rw [hnil] at hpos
      simp at hpos
    rw [← natAbs_firstMaxAbs _ hwrange hwne] at hle
    refine Nat.le_trans hle (le_natAbsMax_of_mem (List.mem_map.mpr ?_))
    exact ⟨j * T / samples.length, List.mem_range.mpr hiT, rfl⟩

/-- Witness for C9 at `samples = [4, -9, 2, 3]` (all in `(-32768, 32767]`),
`T = 2` (the output keeps the peak magnitude 9). -/
theorem C9_single_extremum_peak_preserved_witness :
    1 ≤ 2 ∧ 2 < ([4, -9, 2, 3] : List Int).length ∧
      (∀ x ∈ ([4, -9, 2, 3] : List Int), -32768 < x ∧ x ≤ 32767) ∧
      ∃ out, downsample [4, -9, 2, 3] 2 = some out ∧
        natAbsMax out = natAbsMax [4, -9, 2, 3] :=
  ⟨by decide, by decide, by decide,
    C9_single_extremum_peak_preserved [4, -9, 2, 3] 2 (by decide) (by decide) (by decide)⟩

/-- C2, counterexample: the claim quantifies over every `T < len(source)`,
including `T = 1`, where `AudioLoader._downsample` computes
`effective_target_length = 1 // 2 = 0` and raises `ZeroDivisionError`;
moreover for odd `T` the appended point is *not* the last non-zero emitted
value: on `[7, -7, 0, 0, 0, 0]` with `T = 5` the emitted points are
`[7, -7, 0, 0]` (the last window is all-zero), and the code appends
`downsampled_data[-2] = 0`, not the last non-zero emitted value `-7`. -/
theorem C2_counterexample :
    dualDownsample [1, 2, 3] 1 = none ∧
      dualDownsample [7, -7, 0, 0, 0, 0] 5 = some [7, -7, 0, 0, 0] := by
  constructor <;> decide

/-- C2, amended: for every source sequence and every target length `T` with
`2 ≤ T < len(source)`, the dual-extremum decimation policy
(`AudioLoader._downsample`, `src/audio_model/load_audio.py`) returns a
sequence of length exactly `T`, including odd `T`; for odd `T` the extra
point appended is the last emitted value, or the second-to-last emitted
value when the last emitted value is zero (which may itself be zero even
when earlier emitted values are non-zero).  For `T ≤ 1 < len(source)` the
code raises `ZeroDivisionError`. -/
theorem C2_dual_extremum_length (samples : List Int) (T : Nat)
    (h2 : 2 ≤ T) (hL : T < samples.length) :
    ∃ out, dualDownsample samples T = some out ∧ out.length = T :=
  dualDownsample_some h2 hL

/-- Witness for C2 at `samples = [1, 5, -2, 4]`, odd `T = 3`. -/
theorem C2_dual_extremum_length_witness :
    2 ≤ 3 ∧ 3 < ([1, 5, -2, 4] : List Int).length ∧
      ∃ out, dualDownsample [1, 5, -2, 4] 3 = some out ∧ out.length = 3 :=
  ⟨by decide, by decide, C2_dual_extremum_length [1, 5, -2, 4] 3 (by decide) (by decide)⟩

/-- C3, counterexample: the claim says both policies return a result for
target length 0, but with a non-empty source and target 0 both raise
`ZeroDivisionError` (window count 0). -/
theorem C3_counterexample_target_zero :
    downsample [4, 5] 0 = none ∧ dualDownsample [4, 5, 6] 0 = none := by
  constructor <;> decide

/-- C3, amended: decimation never fails when the target length is at least
the source length (both policies return the source unchanged); the
single-extremum policy also never fails for `T ≥ 1` and the dual-extremum
policy for `T ≥ 2`.  The degenerate cases `T = 0` (single-extremum) and
`T ≤ 1` (dual-extremum) with a longer source raise `ZeroDivisionError`. -/
theorem C3_decimation_totality (samples : List Int) (T : Nat) :
    (samples.length ≤ T →
      downsample samples T = some samples ∧ dualDownsample samples T = some samples) ∧
    (1 ≤ T → (downsample samples T).isSome = true) ∧
    (2 ≤ T → (dualDownsample samples T).isSome = true) := by
  refine ⟨?_, ?_, ?_⟩
  · intro h
    constructor
    · rw [downsample]
      simp [h]
    · rw [dualDownsample, if_pos h]
  · intro h1
    by_cases hL : T < samples.length
    · rw [downsample_eq_map h1 hL]
      rfl
    · rw [downsample]
      simp [Nat.le_of_not_lt hL]
  · intro h2
    by_cases hL : T < samples.length
    · obtain ⟨out, hout, _⟩ := dualDownsample_some h2 hL
      rw [hout]
      rfl
    · rw [dualDownsample, if_pos (Nat.le_of_not_lt hL)]
      rfl

/-- Witness for C3 at `samples = [2, 9]`, `T = 3` (target beyond source:
identity) and at `samples = [2, 9, 4]`, `T = 2` (both policies succeed). -/
theorem C3_decimation_totality_witness :
    (downsample [2, 9] 3 = some [2, 9] ∧ dualDownsample [2, 9] 3 = some [2, 9]) ∧
      (downsample [2, 9, 4] 2).isSome = true ∧
      (dualDownsample [2, 9, 4] 2).isSome = true :=
  ⟨(C3_decimation_totality [2, 9] 3).1 (by decide),
    (C3_decimation_totality [2, 9, 4] 2).2.1 (by decide),
    (C3_decimation_totality [2, 9, 4] 2).2.2 (by decide)⟩

/-- numpy modular wraparound applied to the sum of two machine integers of the
array dtype selected by `_convert_raw_to_numpy`: `np.uint8` when
`sample_width = 1`, `np.int16` when `sample_width = 2`. -/
def wrapInt (sample_width : Nat) (x : Int) : Int :=
  if sample_width = 1 then x % 256
  else (x + 32768) % 65536 - 32768

/-- The interleaved frame pairs `zip(audio_data[::2], audio_data[1::2])` of an
even-length buffer. -/
def stereoPairs : List Int → List (Int × Int)
  | a :: b :: rest => (a, b) :: stereoPairs rest
  | _ => []

/-- Embedding of `AudioLoader._compute_stereo_average`
(`src/audio_model/load_audio.py`; `compute_stereo_average` in
`src/oscilloscope/load_audio.py` is identical).  The addition
`left_channel + right_channel` is numpy machine-integer addition in the
array dtype and wraps around; the division by 2 then yields floats.
For an odd-length buffer the two slices have different lengths and numpy
raises a broadcast error (`none`). -/
def compute_stereo_average (sample_width : Nat) (samples : List Int) : Option (List ℚ) :=
  if samples.length % 2 = 0 then
    some ((stereoPairs samples).map (fun p => ((wrapInt sample_width (p.1 + p.2) : Int) : ℚ) / 2))
  else none

/-- Embedding of `AudioLoader._normalize_audio` (`src/audio_model/load_audio.py`;
`normalize_audio` in `src/oscilloscope/load_audio.py` is identical):
8-bit unsigned data maps to `(value - 128) / 128`, 16-bit signed data to
`value / 32767`, any other sample width raises `ValueError` (`none`). -/
def normalize_audio_data (sample_width : Nat) (samples : List ℚ) : Option (List ℚ) :=
  if sample_width = 1 then some (samples.map (fun v => (v - 128) / 128))
  else if sample_width = 2 then some (samples.map (fun v => v / 32767))
  else none

/-- The mutable state of the `AudioLoader` instance in
`src/audio_model/load_audio.py`, field order as in `__init__` (all `None`
initially). -/
structure LoaderState where
  rate : Option Nat
  frames : Option Nat
  max_audio_data : Option (List ℚ)
  audio_data : Option (List ℚ)
  n_channels : Option Nat
  time : Option ℚ
deriving DecidableEq

/-- The freshly constructed `AudioLoader()`. -/
def initLoader : LoaderState := ⟨none, none, none, none, none, none⟩

/-- The metadata and decoded sample sequence obtained from a successfully
opened WAV container (`wave.open` + `getnchannels`/`getsampwidth`/
`getframerate`/`getnframes`/`readframes`).  `samples` is the flat interleaved
integer buffer of length `frames * n_channels` produced by `np.frombuffer`. -/
structure WavFile where
  n_channels : Nat
  sample_width : Nat
  rate : Nat
  frames : Nat
  samples : List Int

/-- Embedding of `AudioLoader.get_duration`: when no frame rate is recorded
(`self.rate is None`) the guard falls through, the method returns `None` and
the state is unchanged; otherwise it stores and returns
`self.frames / float(self.rate)`.  The outer `none` marks the runtime errors
(`ZeroDivisionError` when the recorded rate is 0, a `TypeError` when `frames`
is unset while `rate` is set — unreachable from the class's own methods). -/
def get_duration (st : LoaderState) : Option (LoaderState × Option ℚ) :=
  match st.rate with
  | none => some (st, none)
  | some r =>
    match st.frames with
    | none => none
    | some f =>
      if r = 0 then none
      else some ({ st with time := some ((f : ℚ) / (r : ℚ)) }, some ((f : ℚ) / (r : ℚ)))

/-- Embedding of `AudioLoader.load_audio` (`src/audio_model/load_audio.py`).
Returns the state after the call together with a success flag; on failure
(`False`) the returned state holds every mutation performed before the raise:
`n_channels`, `frames` and `rate` are always overwritten first, then
`get_duration` overwrites `time`, and only then can `_convert_raw_to_numpy`
raise on an unsupported sample width.  Decimation (when `frames > max_size`)
runs on the raw interleaved buffer *before* the stereo average and the
normalization, exactly as in the source. -/
def load_audio_data (st : LoaderState) (wav : WavFile) (max_size : Nat) :
    LoaderState × Bool :=
  let st1 : LoaderState :=
    { st with n_channels := some wav.n_channels, frames := some wav.frames,
              rate := some wav.rate }
  match get_duration st1 with
  | none => (st1, false)
  | some (st2, _) =>
    if wav.sample_width = 1 ∨ wav.sample_width = 2 then
      match (if max_size < wav.frames then dualDownsample wav.samples max_size
             else some wav.samples) with
      | none => (st2, false)
      | some audio =>
        match (if wav.n_channels = 2 then compute_stereo_average wav.sample_width audio
               else some (audio.map (fun v => (v : ℚ)))) with
        | none => (st2, false)
        | some avg =>
          match normalize_audio_data wav.sample_width avg with
          | none => (st2, false)
          | some norm => ({ st2 with max_audio_data := some norm }, true)
    else (st2, false)

/-- Modelled from the spec: ChannelReducer (§4.2) — for `channelCount = 1` the
input unchanged, for `channelCount = 2` the true mathematical average
`(left[i] + right[i]) / 2` per frame computed with widened arithmetic (no
wraparound), other channel counts unsupported. -/
def specReduce (channels : Nat) (samples : List Int) : Option (List ℚ) :=
  if channels = 1 then some (samples.map (fun v => (v : ℚ)))
  else if channels = 2 then
    if samples.length % 2 = 0 then
      some ((stereoPairs samples).map (fun p => ((p.1 : ℚ) + (p.2 : ℚ)) / 2))
    else none
  else none

/-- Modelled from the spec: the last non-zero emitted value used as the odd
padding point of the dual-extremum policy in §4.4 (0 when none exists). -/
def lastNonZeroPad (l : List ℚ) : ℚ :=
  (l.reverse.find? (fun x => decide (x ≠ 0))).getD 0

/-- Modelled from the spec: the dual-extremum decimation policy as §4.4 words
it — window count `targetLength // 2` with the boundary formula
`boundary[i] = i * (len(samples) / windowCount)` floored/ceiled, each window
contributing its maximum then its minimum, an empty window contributing two
zeros, and an odd `targetLength` padded with the last non-zero emitted
value; sources no longer than the target are returned unchanged. -/
def specDualDecimate (samples : List ℚ) (T : Nat) : List ℚ :=
  if samples.length ≤ T then samples
  else
    ((if T % 2 = 1 then
        ((List.range (T / 2)).map (fun i =>
          if (dsWindow samples (T / 2) i).isEmpty then ([0, 0] : List ℚ)
          else [listMax (dsWindow samples (T / 2) i),
                listMin (dsWindow samples (T / 2) i)])).flatten ++
          [lastNonZeroPad (((List.range (T / 2)).map (fun i =>
            if (dsWindow samples (T / 2) i).isEmpty then ([0, 0] : List ℚ)
            else [listMax (dsWindow samples (T / 2) i),
                  listMin (dsWindow samples (T / 2) i)])).flatten)]
      else
        ((List.range (T / 2)).map (fun i =>
          if (dsWindow samples (T / 2) i).isEmpty then ([0, 0] : List ℚ)
          else [listMax (dsWindow samples (T / 2) i),
                listMin (dsWindow samples (T / 2) i)])).flatten).take T)

/-- Modelled from the spec: the §4.5 / §2 load pipeline order
Decoder → ChannelReducer → Decimator (dual-extremum, capped at `maxLength`) →
Normalizer, producing the cached max-resolution buffer.  Used only to compare
the specified order against `load_audio_data` (claim C5). -/
def specLoadBuffer (wav : WavFile) (maxLength : Nat) : Option (List ℚ) :=
  match specReduce wav.n_channels wav.samples with
  | none => none
  | some mono => normalize_audio_data wav.sample_width (specDualDecimate mono maxLength)

/-- Pixels per second, `self.view.winfo_width() / self.time` in
`RulerController.draw_ruler_auto`. -/
def one_scale_of (pixel_width duration : ℚ) : ℚ := pixel_width / duration

/-- The ordered threshold table of `RulerController.draw_ruler_auto`. -/
def thresholdTable : List (String × ℚ) :=
  [("XS", 10000), ("S", 1000), ("M", 100), ("L", 10), ("XL", 1), ("XXL", 1/10)]

/-- The `for factor in [...]: if self.one_scale >= thresholds[factor]: break`
loop (with the `for`/`else` fallback to `"XXL"`). -/
def selectScaleAux : List (String × ℚ) → ℚ → String
  | [], _ => "XXL"
  | p :: rest, s => if p.2 ≤ s then p.1 else selectScaleAux rest s

/-- The automatic scale factor chosen by `RulerController.draw_ruler_auto`
from the pixels-per-second density. -/
def selectScale (s : ℚ) : String := selectScaleAux thresholdTable s

/-- The `scale_dict` of `RulerController.draw_ruler_actual`:
(major interval `l_interval`, minor interval `s_interval`) in seconds. -/
def scale_intervals (factor : String) : ℚ × ℚ :=
  if factor = "XS" then (1/100, 1/1000)
  else if factor = "S" then (1/10, 1/100)
  else if factor = "M" then (1, 1/10)
  else if factor = "L" then (10, 1)
  else if factor = "XL" then (30, 10)
  else (60, 30)

/-- Number of major ticks drawn:
`range(0, int(self.time * (1 / l_interval)) + 1)` (Python `int()` truncation,
i.e. the floor for the non-negative durations involved). -/
def majorTickCount (duration l_interval : ℚ) : Nat :=
  (Int.floor (duration * (1 / l_interval))).toNat + 1

/-- The tick times `i * l_interval` of the major-tick loop. -/
def majorTickTimes (duration l_interval : ℚ) : List ℚ :=
  (List.range (majorTickCount duration l_interval)).map (fun i => (i : ℚ) * l_interval)

/-- The pixel positions `x = i * l_interval * self.one_scale` of the
major-tick loop in `RulerController.draw_ruler_actual`. -/
def majorTickXs (duration l_interval one_scale : ℚ) : List ℚ :=
  (List.range (majorTickCount duration l_interval)).map
    (fun i => (i : ℚ) * l_interval * one_scale)

/-- C4: the claim requires `(left[i] + right[i]) / 2` computed without
16-bit overflow, but `left_channel + right_channel` is numpy `int16`
addition and wraps: for the single stereo frame `(30000, 30000)` the code
yields `-2768.0` while the true mathematical average is `30000`. -/
theorem C4_stereo_average_wraparound :
    compute_stereo_average 2 [30000, 30000] = some [-2768] ∧
      ((30000 : ℚ) + 30000) / 2 = 30000 ∧ ((-2768 : ℚ) ≠ 30000) := by
  refine ⟨?_, by norm_num, by norm_num⟩
  norm_num [compute_stereo_average, stereoPairs, wrapInt]

/-- C5, counterexample: on the 16-bit stereo file with interleaved samples
`[100, 0, -100, 0, 0, 0]` (3 frames) and `maxLength = 2`, `load_audio`
caches `[0]` (it decimates the raw interleaved buffer first, collapsing it
to `[100, -100]`, whose stereo average is the single frame `0`), while the
spec's order Reducer → Decimator → Normalizer yields
`[50/32767, -50/32767]`; the two buffers differ (even in length). -/
theorem C5_counterexample :
    (load_audio_data initLoader ⟨2, 2, 1, 3, [100, 0, -100, 0, 0, 0]⟩ 2).1.max_audio_data
        = some [0] ∧
      specLoadBuffer ⟨2, 2, 1, 3, [100, 0, -100, 0, 0, 0]⟩ 2
        = some [50 / 32767, -50 / 32767] ∧
      (some [(0 : ℚ)] ≠ some [(50 : ℚ) / 32767, -50 / 32767]) := by
  refine ⟨?_, ?_, by norm_num⟩
  · norm_num [load_audio_data, get_duration, dualDownsample, dualBody, dualWindowPoints,
      dsWindow, dsStart, dsEnd, listMax, listMin, padValue, compute_stereo_average,
      stereoPairs, wrapInt, normalize_audio_data, List.range_succ]
  · norm_num [specLoadBuffer, specReduce, stereoPairs, specDualDecimate, dsWindow, dsStart,
      dsEnd, listMax, listMin, lastNonZeroPad, normalize_audio_data, List.range_succ]

/-- C5, amended: `load_audio` computes its cached max-resolution buffer in
the order Decoder → Decimator (dual-extremum, applied to the raw
*interleaved* buffer when `frameCount > maxLength`) → ChannelReducer →
Normalizer: whenever that chain produces a buffer, the call succeeds and
caches exactly it. -/
theorem C5_code_pipeline_order (st : LoaderState) (wav : WavFile) (max_size : Nat)
    (buf : List ℚ)
    (hw : wav.sample_width = 1 ∨ wav.sample_width = 2)
    (hr : wav.rate ≠ 0)
    (hchain : ((if max_size < wav.frames then dualDownsample wav.samples max_size
                else some wav.samples).bind
        (fun audio => (if wav.n_channels = 2 then compute_stereo_average wav.sample_width audio
                       else some (audio.map (fun v => (v : ℚ)))).bind
          (normalize_audio_data wav.sample_width))) = some buf) :
    (load_audio_data st wav max_size).1.max_audio_data = some buf ∧
      (load_audio_data st wav max_size).2 = true := by
  rcases Option.bind_eq_some.mp hchain with ⟨audio, ha, h2⟩
  rcases Option.bind_eq_some.mp h2 with ⟨avg, hb, hc⟩
  rw [load_audio_data]
  simp only [get_duration, if_neg hr, if_pos hw, ha, hb, hc]
  exact ⟨trivial, trivial⟩

/-- Witness for C5 at the same stereo file as the counterexample. -/
theorem C5_code_pipeline_order_witness :
    (load_audio_data initLoader ⟨2, 2, 1, 3, [100, 0, -100, 0, 0, 0]⟩ 2).1.max_audio_data
        = some [0] ∧
      (load_audio_data initLoader ⟨2, 2, 1, 3, [100, 0, -100, 0, 0, 0]⟩ 2).2 = true :=
  C5_code_pipeline_order initLoader ⟨2, 2, 1, 3, [100, 0, -100, 0, 0, 0]⟩ 2 [0]
    (Or.inr rfl) (by decide)
    (by norm_num [dualDownsample, dualBody, dualWindowPoints, dsWindow, dsStart, dsEnd,
      listMax, listMin, padValue, compute_stereo_average, stereoPairs, wrapInt,
      normalize_audio_data, List.range_succ])

/-- C6, counterexample: loading a file with unsupported sample width 3 fails,
and the previously cached buffer fields survive, but `rate`, `frames`,
`n_channels` and `time` have already been overwritten with the new file's
metadata before `_convert_raw_to_numpy` raises — the prior state is *not*
left untouched. -/
theorem C6_counterexample :
    (load_audio_data ⟨some 7, some 10, some [1/2], some [1/2], some 1, some (10/7)⟩
        ⟨2, 3, 8, 4, [1, 2, 3, 4, 5, 6, 7, 8]⟩ 5).2 = false ∧
      (load_audio_data ⟨some 7, some 10, some [1/2], some [1/2], some 1, some (10/7)⟩
        ⟨2, 3, 8, 4, [1, 2, 3, 4, 5, 6, 7, 8]⟩ 5).1
        = ⟨some 8, some 4, some [1/2], some [1/2], some 2, some (1/2)⟩ ∧
      ((⟨some 8, some 4, some [1/2], some [1/2], some 2, some (1/2)⟩ : LoaderState)
        ≠ ⟨some 7, some 10, some [1/2], some [1/2], some 1, some (10/7)⟩) := by
  refine ⟨?_, ?_, by simp⟩
  · norm_num [load_audio_data, get_duration]
  · norm_num [load_audio_data, get_duration]

/-- C6, amended: when `load_audio` fails on an unsupported sample width (with
a non-zero frame rate in the file), the call reports failure and the
previously cached buffers (`max_audio_data`, `audio_data`) are untouched, but
`n_channels`, `frames`, `rate` and `time` are overwritten with the new
file's values before the raise. -/
theorem C6_failed_load_state (st : LoaderState) (wav : WavFile) (max_size : Nat)
    (hw1 : wav.sample_width ≠ 1) (hw2 : wav.sample_width ≠ 2) (hr : wav.rate ≠ 0) :
    (load_audio_data st wav max_size).2 = false ∧
      (load_audio_data st wav max_size).1.max_audio_data = st.max_audio_data ∧
      (load_audio_data st wav max_size).1.audio_data = st.audio_data ∧
      (load_audio_data st wav max_size).1.n_channels = some wav.n_channels ∧
      (load_audio_data st wav max_size).1.frames = some wav.frames ∧
      (load_audio_data st wav max_size).1.rate = some wav.rate ∧
      (load_audio_data st wav max_size).1.time
        = some ((wav.frames : ℚ) / (wav.rate : ℚ)) := by
  rw [load_audio_data]
  simp only [get_duration, if_neg hr]
  simp [hw1, hw2]

/-- Witness for C6 at a loader with a previously cached buffer and a file of
sample width 3. -/
theorem C6_failed_load_state_witness :
    (load_audio_data ⟨some 7, some 10, some [1/2], some [1/2], some 1, some (10/7)⟩
        ⟨2, 3, 8, 4, [1, 2, 3, 4, 5, 6, 7, 8]⟩ 5).2 = false ∧
      (load_audio_data ⟨some 7, some 10, some [1/2], some [1/2], some 1, some (10/7)⟩
        ⟨2, 3, 8, 4, [1, 2, 3, 4, 5, 6, 7, 8]⟩ 5).1.max_audio_data = some [1/2] ∧
      (load_audio_data ⟨some 7, some 10, some [1/2], some [1/2], some 1, some (10/7)⟩
        ⟨2, 3, 8, 4, [1, 2, 3, 4, 5, 6, 7, 8]⟩ 5).1.audio_data = some [1/2] ∧
      (load_audio_data ⟨some 7, some 10, some [1/2], some [1/2], some 1, some (10/7)⟩
        ⟨2, 3, 8, 4, [1, 2, 3, 4, 5, 6, 7, 8]⟩ 5).1.n_channels = some 2 ∧
      (load_audio_data ⟨some 7, some 10, some [1/2], some [1/2], some 1, some (10/7)⟩
        ⟨2, 3, 8, 4, [1, 2, 3, 4, 5, 6, 7, 8]⟩ 5).1.frames = some 4 ∧
      (load_audio_data ⟨some 7, some 10, some [1/2], some [1/2], some 1, some (10/7)⟩
        ⟨2, 3, 8, 4, [1, 2, 3, 4, 5, 6, 7, 8]⟩ 5).1.rate = some 8 ∧
      (load_audio_data ⟨some 7, some 10, some [1/2], some [1/2], some 1, some (10/7)⟩
        ⟨2, 3, 8, 4, [1, 2, 3, 4, 5, 6, 7, 8]⟩ 5).1.time
        = some (((4 : Nat) : ℚ) / ((8 : Nat) : ℚ)) :=
  C6_failed_load_state ⟨some 7, some 10, some [1/2], some [1/2], some 1, some (10/7)⟩
    ⟨2, 3, 8, 4, [1, 2, 3, 4, 5, 6, 7, 8]⟩ 5 (by decide) (by decide) (by decide)

/-- C7: `_normalize_audio` maps every 8-bit unsigned value `v ∈ [0, 255]` to
`(v - 128) / 128 ∈ [-1, 1]` and every 16-bit signed value `v ∈ [-32768, 32767]`
to `v / 32767 ∈ [-1.00004, 1]`; the value `-32768` maps slightly below `-1`
and is not clamped. -/
theorem C7_normalizer_mapping (v8 v16 : Int) (h1 : 0 ≤ v8) (h2 : v8 ≤ 255)
    (h3 : -32768 ≤ v16) (h4 : v16 ≤ 32767) :
    normalize_audio_data 1 [(v8 : ℚ)] = some [((v8 : ℚ) - 128) / 128] ∧
      -1 ≤ ((v8 : ℚ) - 128) / 128 ∧ ((v8 : ℚ) - 128) / 128 ≤ 1 ∧
      normalize_audio_data 2 [(v16 : ℚ)] = some [(v16 : ℚ) / 32767] ∧
      -(100004 / 100000 : ℚ) ≤ (v16 : ℚ) / 32767 ∧ (v16 : ℚ) / 32767 ≤ 1 ∧
      normalize_audio_data 2 [((-32768 : Int) : ℚ)] = some [((-32768 : Int) : ℚ) / 32767] ∧
      ((-32768 : Int) : ℚ) / 32767 < -1 := by
  have q1 : (0 : ℚ) ≤ (v8 : ℚ) := by exact_mod_cast h1
  have q2 : (v8 : ℚ) ≤ 255 := by exact_mod_cast h2
  have q3 : (-32768 : ℚ) ≤ (v16 : ℚ) := by exact_mod_cast h3
  have q4 : (v16 : ℚ) ≤ 32767 := by exact_mod_cast h4
  refine ⟨by norm_num [normalize_audio_data], ?_, ?_,
    by norm_num [normalize_audio_data], ?_, ?_,
    by norm_num [normalize_audio_data], by norm_num⟩
  · rw [le_div_iff₀ (by norm_num : (0 : ℚ) < 128)]
    linarith
  · rw [div_le_one (by norm_num : (0 : ℚ) < 128)]
    linarith
  · rw [le_div_iff₀ (by norm_num : (0 : ℚ) < 32767)]
    linarith
  · rw [div_le_one (by norm_num : (0 : ℚ) < 32767)]
    linarith

/-- Witness for C7 at `v8 = 0` (maps to `-1`) and `v16 = 32767` (maps to `1`). -/
theorem C7_normalizer_mapping_witness :
    normalize_audio_data 1 [((0 : Int) : ℚ)] = some [(((0 : Int) : ℚ) - 128) / 128] ∧
      -1 ≤ (((0 : Int) : ℚ) - 128) / 128 ∧ (((0 : Int) : ℚ) - 128) / 128 ≤ 1 ∧
      normalize_audio_data 2 [((32767 : Int) : ℚ)] = some [((32767 : Int) : ℚ) / 32767] ∧
      -(100004 / 100000 : ℚ) ≤ ((32767 : Int) : ℚ) / 32767 ∧
      ((32767 : Int) : ℚ) / 32767 ≤ 1 ∧
      normalize_audio_data 2 [((-32768 : Int) : ℚ)] = some [((-32768 : Int) : ℚ) / 32767] ∧
      ((-32768 : Int) : ℚ) / 32767 < -1 :=
  C7_normalizer_mapping 0 32767 (by decide) (by decide) (by decide) (by decide)

/-- C8: for duration 12.5 s and pixel width 1250 the density is 100 px/s, the
automatic selector picks the first table entry whose threshold is met
(scale `"M"`, major interval 1 s, minor 0.1 s), and the major-tick loop
emits exactly 13 ticks at times 0, 1, ..., 12 s with pixel positions
`tickTime * pixelsPerSecond`. -/
theorem C8_tick_scenario :
    one_scale_of 1250 (25 / 2) = 100 ∧
      selectScale 100 = "M" ∧
      scale_intervals "M" = (1, 1 / 10) ∧
      majorTickCount (25 / 2) 1 = 13 ∧
      majorTickTimes (25 / 2) 1 = [0, 1, 2, 3, 4, 5, 6, 7, 8, 9, 10, 11, 12] ∧
      majorTickXs (25 / 2) 1 100
        = [0, 100, 200, 300, 400, 500, 600, 700, 800, 900, 1000, 1100, 1200] := by
  have h : (⌊((25 : ℚ) / 2) * (1 / 1)⌋ : ℤ) = 12 := by
    rw [Int.floor_eq_iff]
    norm_num
  have hrange : List.range ((12 : ℤ).toNat + 1)
      = [0, 1, 2, 3, 4, 5, 6, 7, 8, 9, 10, 11, 12] := by decide
  refine ⟨by norm_num [one_scale_of],
    by norm_num [selectScale, selectScaleAux, thresholdTable],
    by rw [scale_intervals, if_neg (by decide), if_neg (by decide), if_pos rfl], ?_, ?_, ?_⟩
  · rw [majorTickCount, h]
    rfl
  · rw [majorTickTimes, majorTickCount, h, hrange]
    norm_num
  · rw [majorTickXs, majorTickCount, h, hrange]
    norm_num

/-- C10: with no frame rate recorded (`self.rate is None`, the state of a
fresh loader), `get_duration` raises nothing, returns `None` and leaves the
state unchanged; once a non-zero rate and a frame count are recorded (as by a
successful load) it stores and returns `frames / rate`. -/
theorem C10_get_duration_unloaded (st st2 : LoaderState) (r f : Nat)
    (hnone : st.rate = none) (hr : st2.rate = some r) (hf : st2.frames = some f)
    (hr0 : r ≠ 0) :
    get_duration st = some (st, none) ∧
      get_duration st2 = some ({st2 with time := some ((f : ℚ) / (r : ℚ))},
        some ((f : ℚ) / (r : ℚ))) := by
  constructor
  · rw [get_duration, hnone]
  · simp only [get_duration, hr, hf, if_neg hr0]

/-- Witness for C10 at a fresh loader and at a loader with rate 4, 6 frames. -/
theorem C10_get_duration_unloaded_witness :
    get_duration initLoader = some (initLoader, none) ∧
      get_duration ⟨some 4, some 6, none, none, some 1, none⟩
        = some ({(⟨some 4, some 6, none, none, some 1, none⟩ : LoaderState) with
            time := some (((6 : Nat) : ℚ) / ((4 : Nat) : ℚ))},
          some (((6 : Nat) : ℚ) / ((4 : Nat) : ℚ))) :=
  C10_get_duration_unloaded initLoader ⟨some 4, some 6, none, none, some 1, none⟩ 4 6
    rfl rfl rfl (by decide)
